import Mathlib

/-!
Shallow embedding of `heixconverter`.

This file embeds the two Python source files of the repository
(`src/heixconverter/__init__.py` defining class `HEIX`, and `src/main.py`
defining `CLI`, `GUI` and `main`) and proves the spec claims about them.

Conventions of the embedding:
* PIL images are modelled by their mode string plus an abstract payload id.
* The filesystem effect of `Image.save` is modelled by threading a list of
  `SavedFile` records; a Python `raise` returns the list unchanged together
  with the raised error.
* Python dynamic attribute lookup is modelled against the list of attribute
  names the class and its `__init__` actually define.
-/

namespace HeixConverter

/-- A decoded raster image, as far as this program inspects it: `mode` is the
PIL mode string (for instance "RGB" or "RGBA"); `pix` abstracts the pixel
payload. -/
structure Image where
  mode : String
  pix : Nat
deriving DecidableEq, Repr

/-- Models `PIL.Image.convert(newMode)`: returns a new image object in the requested
mode; the receiver is untouched.  The abstract payload id is carried over. -/
def Image.convert (img : Image) (newMode : String) : Image :=
  { mode := newMode, pix := img.pix }

/-- The class attribute `HEIX.SupportedExtensions = (".heic", ".heif")`. -/
def SupportedExtensions : List String := [".heic", ".heif"]

/-- The class attribute `HEIX.SupportedFormats`: each supported save format with its
`"transparency"` flag (`JPEG ↦ False`, `PNG ↦ True`). -/
def SupportedFormats : List (String × Bool) := [("JPEG", false), ("PNG", true)]

/-- The class attribute `HEIX.FormatConvertedMap`: CLI format names to converter method names. -/
def FormatConvertedMap : List (String × String) :=
  [("png", "as_png"), ("jpg", "as_jpg"), ("jpeg", "as_jpeg")]

/-- A `HEIX` instance: the fields set by `__init__` (`self.path`,
`self.image`). -/
structure HEIX where
  path : String
  image : Image
deriving DecidableEq, Repr

/-- One file written by `Image.save(name, fmt)`: destination name, encoder
format, and the image object that was encoded. -/
structure SavedFile where
  name : String
  fmt : String
  img : Image
deriving DecidableEq, Repr

/-- The error `HEIX._save_as` can raise. -/
inductive SaveError
  | valueError (msg : String)
deriving DecidableEq, Repr

/-- Embedding of `HEIX._save_as(name, fmt)`.  The result is the filesystem and
the object after the call, plus the raised error if any: an unsupported format
raises `ValueError` before anything is written; for JPEG (no transparency
support) an RGBA image is first converted to RGB and the converted copy saved;
otherwise `self.image` is saved as is.  `self` is returned so the theorems can
speak about the object's state after the call. -/
def HEIX.saveAsFmt (self : HEIX) (name fmt : String) (fs : List SavedFile) :
    (List SavedFile × HEIX) × Option SaveError :=
  match SupportedFormats.lookup fmt with
  | none => ((fs, self), some (.valueError ("Unsupported format: " ++ fmt)))
  | some transp =>
    if !transp && self.image.mode == "RGBA" then
      let img := self.image.convert "RGB"
      ((fs ++ [⟨name, fmt, img⟩], self), none)
    else
      ((fs ++ [⟨name, fmt, self.image⟩], self), none)

/-- Embedding of `HEIX.as_jpeg(name)`: `self._save_as(name, "JPEG")`. -/
def HEIX.as_jpeg (self : HEIX) (name : String) (fs : List SavedFile) :
    (List SavedFile × HEIX) × Option SaveError :=
  self.saveAsFmt name "JPEG" fs

/-- Embedding of `HEIX.as_jpg(name)`: `self._save_as(name, "JPEG")`. -/
def HEIX.as_jpg (self : HEIX) (name : String) (fs : List SavedFile) :
    (List SavedFile × HEIX) × Option SaveError :=
  self.saveAsFmt name "JPEG" fs

/-- Embedding of `HEIX.as_png(name)`: `self._save_as(name, "PNG")`. -/
def HEIX.as_png (self : HEIX) (name : String) (fs : List SavedFile) :
    (List SavedFile × HEIX) × Option SaveError :=
  self.saveAsFmt name "PNG" fs

/-- What `HEIX.__init__` observes about its `path` argument: the final
component's name, `path.exists()` and `path.is_file()`. -/
structure PathM where
  name : String
  pathExists : Bool
  isFile : Bool
deriving DecidableEq, Repr

/-- Models `pathlib.PurePath.suffix` of a final component `name`: `name[i:]` where
`i` is the index of the last dot, provided `0 < i < len(name) - 1`; otherwise
the empty string (so a leading-dot name like ".heic" and a trailing-dot name
like "x." have no suffix). -/
def suffixOfName (name : String) : String :=
  let rev := name.data.reverse
  let extRev := rev.takeWhile (fun c => c != '.')
  match rev.drop extRev.length with
  | [] => ""
  | _ :: stemRev =>
    if stemRev.isEmpty || extRev.isEmpty then ""
    else String.mk ('.' :: extRev.reverse)

/-- Models `path.suffix` for a modelled path. -/
def PathM.suffix (p : PathM) : String := suffixOfName p.name

/-- The errors `HEIX.__init__` can raise. -/
inductive InitError
  | oserror (msg : String)
  | valueError (msg : String)
deriving DecidableEq, Repr

/-- Embedding of `HEIX.__init__(path)`.  `decode` stands for
`pyheif.read` followed by `Image.frombytes`; the source invokes it only after
the existence, regular-file and suffix checks all pass. -/
def HEIX.init (decode : PathM → Image) (path : PathM) : Except InitError HEIX :=
  if !path.pathExists then
    .error (.oserror ("File " ++ path.name ++ " does not exist"))
  else if !path.isFile then
    .error (.oserror ("file " ++ path.name ++ " is not a file"))
  else if !(SupportedExtensions.contains path.suffix) then
    .error (.valueError ("Unsupported image type: " ++ path.suffix))
  else
    .ok ⟨path.name, decode path⟩

/-! ## Directory listing (`Path.glob`)

`CLI.run` lists `src_dir.glob("*.hei[cf]")`; `GUI.Worker.run` lists
`self.src_dir.glob("*.hei[c|f]")`.  `pathlib` matches the pattern against each
entry name with `fnmatch` semantics: `*` matches any (possibly empty) run of
characters and `[...]` matches one character from the bracketed set, all other
characters literally. -/

/-- One token of a glob pattern. -/
inductive GTok
  | star
  | charClass (cs : List Char)
  | lit (c : Char)
deriving DecidableEq, Repr

/-- Tokenize a glob pattern (fuel-indexed; `parsePattern` supplies enough
fuel).  `*` becomes `star`, `[` up to the next `]` becomes `charClass`, any
other character a literal. -/
def parsePatternFuel : Nat → List Char → List GTok
  | 0, _ => []
  | _ + 1, [] => []
  | n + 1, '*' :: rest => .star :: parsePatternFuel n rest
  | n + 1, '[' :: rest =>
    let cs := rest.takeWhile (fun c => c != ']')
    let rest' := (rest.dropWhile (fun c => c != ']')).drop 1
    .charClass cs :: parsePatternFuel n rest'
  | n + 1, c :: rest => .lit c :: parsePatternFuel n rest

/-- Tokenize a glob pattern. -/
def parsePattern (p : String) : List GTok := parsePatternFuel p.data.length p.data

/-- Glob matching of a tokenized pattern against a name, fuel-indexed so that
it is structurally recursive (each step consumes a pattern token or a name
character, so `gmatch` below always supplies enough fuel). -/
def gmatchFuel : Nat → List GTok → List Char → Bool
  | 0, _, _ => false
  | _ + 1, [], [] => true
  | _ + 1, [], _ :: _ => false
  | n + 1, .star :: ts, [] => gmatchFuel n ts []
  | n + 1, .star :: ts, c :: s =>
    gmatchFuel n ts (c :: s) || gmatchFuel n (.star :: ts) s
  | _ + 1, .charClass _ :: _, [] => false
  | n + 1, .charClass cs :: ts, c :: s => cs.contains c && gmatchFuel n ts s
  | _ + 1, .lit _ :: _, [] => false
  | n + 1, .lit p :: ts, c :: s => p == c && gmatchFuel n ts s

/-- Glob matching of a tokenized pattern against a name. -/
def gmatch (ts : List GTok) (s : List Char) : Bool :=
  gmatchFuel (ts.length + s.length + 1) ts s

/-- Models `dir.glob(pat)` over a directory whose entry names are `files`: the
entries whose names match the pattern, in directory order. -/
def globFilter (pat : String) (files : List String) : List String :=
  files.filter (fun n => gmatch (parsePattern pat) n.data)

/-- The list `heix_images` as computed by `CLI.run`:
`[i for i in src_dir.glob("*.hei[cf]")]`. -/
def cliHeixImages (files : List String) : List String :=
  globFilter "*.hei[cf]" files

/-- The list `heix_images` as computed by `GUI.Worker.run`:
`[i for i in self.src_dir.glob("*.hei[c|f]")]`. -/
def guiHeixImages (files : List String) : List String :=
  globFilter "*.hei[c|f]" files

/-- Holds when `name` ends with the extension `ext` (plain string-suffix test, the
reading of "files whose names end in …" in the claim). -/
def hasSuffixExt (ext name : String) : Bool :=
  ext.data.isSuffixOf name.data

/-- The common shape of both glob patterns of the program: `*` then the
literal characters `.hei` then one character class. -/
def heiPat (cs : List Char) : List GTok :=
  [.star, .lit '.', .lit 'h', .lit 'e', .lit 'i', .charClass cs]

/-! ### Unfolding lemmas for `gmatch` -/

theorem gmatchFuel_congr (n : Nat) :
    ∀ (m : Nat) (ts : List GTok) (s : List Char),
      ts.length + s.length < n → ts.length + s.length < m →
      gmatchFuel n ts s = gmatchFuel m ts s := by
  induction n with
  | zero => intro m ts s hn _; exact absurd hn (Nat.not_lt_zero _)
  | succ n ih =>
    intro m ts s hn hm
    match m, ts, s with
    | 0, ts, s => exact absurd hm (Nat.not_lt_zero _)
    | m + 1, [], [] => rfl
    | m + 1, [], c :: s => rfl
    | m + 1, .star :: ts, [] =>
      simp only [List.length_cons, List.length_nil] at hn hm
      simpa only [gmatchFuel] using ih m ts [] (by simp; omega) (by simp; omega)
    | m + 1, .star :: ts, c :: s =>
      simp only [List.length_cons] at hn hm
      simp only [gmatchFuel]
      rw [ih m ts (c :: s) (by simp; omega) (by simp; omega),
        ih m (.star :: ts) s (by simp; omega) (by simp; omega)]
    | m + 1, .charClass cs :: ts, [] => rfl
    | m + 1, .charClass cs :: ts, c :: s =>
      simp only [List.length_cons] at hn hm
      simp only [gmatchFuel]
      rw [ih m ts s (by omega) (by omega)]
    | m + 1, .lit p :: ts, [] => rfl
    | m + 1, .lit p :: ts, c :: s =>
      simp only [List.length_cons] at hn hm
      simp only [gmatchFuel]
      rw [ih m ts s (by omega) (by omega)]

theorem gmatchFuel_eq_gmatch (n : Nat) (ts : List GTok) (s : List Char)
    (h : ts.length + s.length < n) : gmatchFuel n ts s = gmatch ts s :=
  gmatchFuel_congr n (ts.length + s.length + 1) ts s h (Nat.lt_succ_self _)

theorem gmatch_nil_iff (s : List Char) : gmatch [] s = true ↔ s = [] := by
  cases s <;> simp [gmatch, gmatchFuel]

theorem gmatch_star_nil (ts : List GTok) : gmatch (.star :: ts) [] = gmatch ts [] := by
  have h1 : gmatch (.star :: ts) []
      = gmatchFuel ((GTok.star :: ts).length + ([] : List Char).length) ts [] := rfl
  rw [h1, gmatchFuel_eq_gmatch _ ts [] (by simp)]

theorem gmatch_star_cons (ts : List GTok) (c : Char) (s : List Char) :
    gmatch (.star :: ts) (c :: s) =
      (gmatch ts (c :: s) || gmatch (.star :: ts) s) := by
  have h1 : gmatch (.star :: ts) (c :: s)
      = (gmatchFuel ((GTok.star :: ts).length + (c :: s).length) ts (c :: s)
         || gmatchFuel ((GTok.star :: ts).length + (c :: s).length) (.star :: ts) s) := rfl
  rw [h1, gmatchFuel_eq_gmatch _ ts (c :: s) (by simp),
    gmatchFuel_eq_gmatch _ (.star :: ts) s (by simp)]

theorem gmatch_class_nil (cs : List Char) (ts : List GTok) :
    gmatch (.charClass cs :: ts) [] = false := rfl

theorem gmatch_class_cons (cs : List Char) (ts : List GTok) (c : Char) (s : List Char) :
    gmatch (.charClass cs :: ts) (c :: s) = (cs.contains c && gmatch ts s) := by
  have h1 : gmatch (.charClass cs :: ts) (c :: s)
      = (cs.contains c
         && gmatchFuel ((GTok.charClass cs :: ts).length + (c :: s).length) ts s) := rfl
  rw [h1, gmatchFuel_eq_gmatch _ ts s (by simp; omega)]

theorem gmatch_lit_nil (p : Char) (ts : List GTok) :
    gmatch (.lit p :: ts) [] = false := rfl

theorem gmatch_lit_cons (p : Char) (ts : List GTok) (c : Char) (s : List Char) :
    gmatch (.lit p :: ts) (c :: s) = ((p == c) && gmatch ts s) := by
  have h1 : gmatch (.lit p :: ts) (c :: s)
      = ((p == c)
         && gmatchFuel ((GTok.lit p :: ts).length + (c :: s).length) ts s) := rfl
  rw [h1, gmatchFuel_eq_gmatch _ ts s (by simp; omega)]

/-! ### Characterizing the two patterns of the program -/

theorem gmatch_heiTail_iff (cs : List Char) (s : List Char) :
    gmatch [.lit '.', .lit 'h', .lit 'e', .lit 'i', .charClass cs] s = true ↔
      ∃ c, cs.contains c = true ∧ s = ['.', 'h', 'e', 'i', c] := by
  rcases s with _ | ⟨a, _ | ⟨b, _ | ⟨c', _ | ⟨d, _ | ⟨e, rest⟩⟩⟩⟩⟩ <;>
    simp [gmatch_lit_cons, gmatch_lit_nil, gmatch_class_cons, gmatch_class_nil,
      gmatch_nil_iff]
  aesop

theorem gmatch_star_iff (ts : List GTok) (s : List Char) :
    gmatch (.star :: ts) s = true ↔ ∃ s2, s2 <:+ s ∧ gmatch ts s2 = true := by
  induction s with
  | nil =>
    rw [gmatch_star_nil]
    simp [List.suffix_nil]
  | cons c s ih =>
    rw [gmatch_star_cons, Bool.or_eq_true, ih]
    constructor
    · rintro (h | ⟨s2, hs, hm⟩)
      · exact ⟨c :: s, List.suffix_refl _, h⟩
      · exact ⟨s2, hs.trans (List.suffix_cons c s), hm⟩
    · rintro ⟨s2, hs, hm⟩
      rcases List.suffix_cons_iff.mp hs with h | h
      · exact Or.inl (h ▸ hm)
      · exact Or.inr ⟨s2, h, hm⟩

theorem gmatch_heiPat_iff (cs : List Char) (name : List Char) :
    gmatch (heiPat cs) name = true ↔
      ∃ c, cs.contains c = true ∧ ['.', 'h', 'e', 'i', c] <:+ name := by
  rw [show heiPat cs = .star ::
      [GTok.lit '.', .lit 'h', .lit 'e', .lit 'i', .charClass cs] from rfl,
    gmatch_star_iff]
  constructor
  · rintro ⟨s2, hs, hm⟩
    obtain ⟨c, hc, rfl⟩ := (gmatch_heiTail_iff cs s2).mp hm
    exact ⟨c, hc, hs⟩
  · rintro ⟨c, hc, hs⟩
    exact ⟨_, hs, (gmatch_heiTail_iff cs _).mpr ⟨c, hc, rfl⟩⟩

/-! ## The batch workers (`CLI._worker`, `GUI.Worker.run`) -/

/-- Every attribute name a `HEIX` instance has: the class attributes
(`SupportedExtensions`, `SupportedFormats`, `FormatConvertedMap`), the methods
the class defines (`__init__`, `_save_as`, `as_jpeg`, `as_jpg`, `as_png`) and
the instance attributes assigned in `__init__` (`path`, `image`).  Python
attribute lookup on an instance succeeds exactly for these names. -/
def HEIX.attrNames : List String :=
  ["SupportedExtensions", "SupportedFormats", "FormatConvertedMap",
   "__init__", "_save_as", "as_jpeg", "as_jpg", "as_png", "path", "image"]

/-- Dynamic attribute lookup on a `HEIX` instance, as evaluating
`heix_image.save_as` performs: `some name` when the attribute exists, `none`
(an `AttributeError`) otherwise. -/
def HEIX.lookupAttr (name : String) : Option String :=
  if HEIX.attrNames.contains name then some name else none

/-- The errors a batch worker can raise. -/
inductive WorkerError
  | attributeError (attr : String)
  | initError (e : InitError)
deriving DecidableEq, Repr

/-- Embedding of `CLI._worker(dst_dir, image_path, fmt)`: construct
`HEIX(image_path)`, then evaluate `heix_image.save_as(dst_dir, fmt)` — an
attribute lookup of `"save_as"` on the instance, which raises
`AttributeError` when no such attribute exists; nothing is written in that
case.  (The `sleep(randint(1, 5) / 10)` between the two steps has no effect
on the result.)  The result is the filesystem after the call and the raised
error, if any. -/
def cliWorker (decode : PathM → Image) (_dstDir : String) (imagePath : PathM)
    (_fmt : String) (fs : List SavedFile) : List SavedFile × Option WorkerError :=
  match HEIX.init decode imagePath with
  | .error e => (fs, some (.initError e))
  | .ok _ =>
    match HEIX.lookupAttr "save_as" with
    | none => (fs, some (.attributeError "save_as"))
    | some _ => (fs, none)

/-- Embedding of one iteration of the loop in `GUI.Worker.run` for one
`image_path`: `HEIX(image_path)` inside `try`, with `OSError` and
`ValueError` swallowed; otherwise `image.save_as(self.dst_dir, self.format)`
is evaluated, the same unguarded attribute lookup of `"save_as"`. -/
def guiWorkerStep (decode : PathM → Image) (_dstDir : String) (imagePath : PathM)
    (_fmt : String) (fs : List SavedFile) : List SavedFile × Option WorkerError :=
  match HEIX.init decode imagePath with
  | .error _ => (fs, none)
  | .ok _ =>
    match HEIX.lookupAttr "save_as" with
    | none => (fs, some (.attributeError "save_as"))
    | some _ => (fs, none)

/-! ## Pool structure of a batch (`CLI.run`, `GUI.on_start_button_clicked`) -/

/-- The tasks `CLI.run` gives its `ThreadPoolExecutor`: the dict
comprehension `{pool.submit(self._worker, dst_dir, img, fmt): img for img in
heix_images}` submits one task per image, each task converting exactly that
one image. -/
def cliPoolTasks (images : List String) : List (List String) :=
  images.map (fun img => [img])

/-- The runnables `GUI.on_start_button_clicked` starts on its `QThreadPool`:
a single `GUI.Worker` whose `run()` iterates over all the images of the
batch in order. -/
def guiPoolTasks (images : List String) : List (List String) :=
  [images]

/-- A batch decomposition admits concurrent conversions when no single pool
task serializes two or more image conversions: conversions can then only be
ordered by the pool, not by a task's internal sequencing. -/
def parallelBatch (tasks : List (List String)) : Bool :=
  tasks.all (fun t => t.length ≤ 1)

/-! ## The entry point (`main`) -/

/-- The two user interfaces the program defines. -/
inductive Interface
  | cli
  | gui
deriving DecidableEq, Repr

/-- The interfaces whose `run()` the entry point `main()` invokes: the body
is exactly `GUI().run()`. -/
def mainRuns : List Interface := [Interface.gui]

/-! ## Helper lemmas about `_save_as` -/

theorem lookup_SupportedFormats (fmt : String) :
    SupportedFormats.lookup fmt =
      if fmt = "JPEG" then some false
      else if fmt = "PNG" then some true
      else none := by
  by_cases h1 : fmt = "JPEG" <;> by_cases h2 : fmt = "PNG"
  · simp [SupportedFormats, List.lookup, h1, h2]
  · simp [SupportedFormats, List.lookup, h1, h2]
  · simp [SupportedFormats, List.lookup, h1, h2]
  · have b1 : (fmt == "JPEG") = false := beq_eq_false_iff_ne.mpr h1
    have b2 : (fmt == "PNG") = false := beq_eq_false_iff_ne.mpr h2
    simp [SupportedFormats, List.lookup, h1, h2, b1, b2]

theorem saveAsFmt_jpeg (self : HEIX) (name : String) (fs : List SavedFile) :
    self.saveAsFmt name "JPEG" fs
      = ((fs ++ [⟨name, "JPEG",
          if self.image.mode == "RGBA" then self.image.convert "RGB"
          else self.image⟩], self), none) := by
  simp only [HEIX.saveAsFmt, SupportedFormats, List.lookup]
  by_cases h : self.image.mode == "RGBA" <;> simp [h]

theorem saveAsFmt_png (self : HEIX) (name : String) (fs : List SavedFile) :
    self.saveAsFmt name "PNG" fs
      = ((fs ++ [⟨name, "PNG", self.image⟩], self), none) := by
  simp [HEIX.saveAsFmt, SupportedFormats, List.lookup]

theorem saveAsFmt_unsupported (self : HEIX) (name fmt : String)
    (fs : List SavedFile) (h1 : fmt ≠ "JPEG") (h2 : fmt ≠ "PNG") :
    self.saveAsFmt name fmt fs
      = ((fs, self), some (.valueError ("Unsupported format: " ++ fmt))) := by
  simp [HEIX.saveAsFmt, lookup_SupportedFormats, h1, h2]

theorem saveAsFmt_state (self : HEIX) (name fmt : String) (fs : List SavedFile) :
    (self.saveAsFmt name fmt fs).1.2 = self := by
  by_cases h1 : fmt = "JPEG"
  · subst h1; rw [saveAsFmt_jpeg]
  · by_cases h2 : fmt = "PNG"
    · subst h2; rw [saveAsFmt_png]
    · rw [saveAsFmt_unsupported self name fmt fs h1 h2]

/-! ## The claims -/

/-- C2: when saving to JPEG (no transparency support) and the decoded image
is in RGBA mode, a converted RGB copy is what gets saved; in every other
case (PNG, or a non-RGBA image) the stored image is saved as is, so PNG
output carries `self.image` unchanged — alpha channel included — and the
converted copy really is in RGB mode. -/
theorem heix_alpha_policy (self : HEIX) (name : String) (fs : List SavedFile) :
    self.saveAsFmt name "JPEG" fs
      = ((fs ++ [⟨name, "JPEG",
          if self.image.mode == "RGBA" then self.image.convert "RGB"
          else self.image⟩], self), none)
    ∧ self.saveAsFmt name "PNG" fs
      = ((fs ++ [⟨name, "PNG", self.image⟩], self), none)
    ∧ (self.image.convert "RGB").mode = "RGB" :=
  ⟨saveAsFmt_jpeg self name fs, saveAsFmt_png self name fs, rfl⟩

/-- C4: `_save_as` raises `ValueError` exactly when the requested format is
neither "JPEG" nor "PNG"; in that case neither the filesystem nor the object
changes; `as_jpeg` and `as_jpg` dispatch to the JPEG codec, `as_png` to the
PNG codec, and none of the three raises the error. -/
theorem save_as_format_dispatch (self : HEIX) (name fmt : String)
    (fs : List SavedFile) :
    ((∃ m, (self.saveAsFmt name fmt fs).2 = some (SaveError.valueError m)) ↔
        (fmt ≠ "JPEG" ∧ fmt ≠ "PNG"))
    ∧ ((self.saveAsFmt name fmt fs).2.isSome →
        (self.saveAsFmt name fmt fs).1 = (fs, self))
    ∧ ((self.as_jpeg name fs).2 = none ∧ (self.as_jpg name fs).2 = none
        ∧ (self.as_png name fs).2 = none)
    ∧ (∃ f : SavedFile, f.fmt = "JPEG" ∧ (self.as_jpeg name fs).1.1 = fs ++ [f])
    ∧ (∃ f : SavedFile, f.fmt = "JPEG" ∧ (self.as_jpg name fs).1.1 = fs ++ [f])
    ∧ (∃ f : SavedFile, f.fmt = "PNG" ∧ (self.as_png name fs).1.1 = fs ++ [f]) := by
  refine ⟨⟨?_, ?_⟩, ?_, ?_, ?_, ?_, ?_⟩
  · rintro ⟨m, hm⟩
    by_cases h1 : fmt = "JPEG"
    · subst h1; rw [saveAsFmt_jpeg] at hm; simp at hm
    · by_cases h2 : fmt = "PNG"
      · subst h2; rw [saveAsFmt_png] at hm; simp at hm
      · exact ⟨h1, h2⟩
  · rintro ⟨h1, h2⟩
    rw [saveAsFmt_unsupported self name fmt fs h1 h2]
    exact ⟨_, rfl⟩
  · intro hsome
    by_cases h1 : fmt = "JPEG"
    · subst h1; rw [saveAsFmt_jpeg] at hsome; simp at hsome
    · by_cases h2 : fmt = "PNG"
      · subst h2; rw [saveAsFmt_png] at hsome; simp at hsome
      · rw [saveAsFmt_unsupported self name fmt fs h1 h2]
  · refine ⟨?_, ?_, ?_⟩ <;>
      simp [HEIX.as_jpeg, HEIX.as_jpg, HEIX.as_png, saveAsFmt_jpeg, saveAsFmt_png]
  · exact ⟨_, rfl, by
      rw [show self.as_jpeg name fs = self.saveAsFmt name "JPEG" fs from rfl,
        saveAsFmt_jpeg]⟩
  · exact ⟨_, rfl, by
      rw [show self.as_jpg name fs = self.saveAsFmt name "JPEG" fs from rfl,
        saveAsFmt_jpeg]⟩
  · exact ⟨_, rfl, by
      rw [show self.as_png name fs = self.saveAsFmt name "PNG" fs from rfl,
        saveAsFmt_png]⟩

/-- C4 witness: at the unsupported format "GIF" the theorem yields a raised
error with the filesystem and object untouched. -/
theorem save_as_format_dispatch_witness :
    (HEIX.saveAsFmt ⟨"a.heic", ⟨"RGB", 0⟩⟩ "o" "GIF" []).1
      = ([], ⟨"a.heic", ⟨"RGB", 0⟩⟩) :=
  (save_as_format_dispatch ⟨"a.heic", ⟨"RGB", 0⟩⟩ "o" "GIF" []).2.1 (by decide)

/-- C8: `as_jpg` and `as_jpeg` are extensionally equal — both delegate to
`_save_as` with format "JPEG" — so they produce identical results on every
object, output name and filesystem. -/
theorem as_jpg_eq_as_jpeg (self : HEIX) (name : String) (fs : List SavedFile) :
    self.as_jpg name fs = self.as_jpeg name fs
    ∧ self.as_jpg name fs = self.saveAsFmt name "JPEG" fs
    ∧ self.as_jpeg name fs = self.saveAsFmt name "JPEG" fs :=
  ⟨rfl, rfl, rfl⟩

/-- C9: every save leaves the object's `path` and `image` fields unchanged;
JPEG output of an RGBA image encodes a converted copy so a subsequent PNG
save still writes the stored RGBA image; and running two saves in either
order yields the same outputs (as an unordered collection of written
files). -/
theorem heix_saves_pure (self : HEIX) (n1 n2 fmt : String) (fs : List SavedFile) :
    (self.saveAsFmt n1 fmt fs).1.2 = self
    ∧ ((self.as_jpeg n1 fs).1.2 = self ∧ (self.as_jpg n1 fs).1.2 = self
        ∧ (self.as_png n1 fs).1.2 = self)
    ∧ (self.image.mode = "RGBA" →
        ((self.as_jpeg n1 fs).1.2.as_png n2 (self.as_jpeg n1 fs).1.1).1.1
          = fs ++ [⟨n1, "JPEG", self.image.convert "RGB"⟩,
                   ⟨n2, "PNG", self.image⟩])
    ∧ (((self.as_jpeg n1 fs).1.2.as_png n2 (self.as_jpeg n1 fs).1.1).1.1).Perm
        (((self.as_png n2 fs).1.2.as_jpeg n1 (self.as_png n2 fs).1.1).1.1) := by
  refine ⟨saveAsFmt_state self n1 fmt fs,
    ⟨saveAsFmt_state self n1 "JPEG" fs, saveAsFmt_state self n1 "JPEG" fs,
      saveAsFmt_state self n1 "PNG" fs⟩, ?_, ?_⟩
  · intro hm
    simp [HEIX.as_jpeg, HEIX.as_png, saveAsFmt_jpeg, saveAsFmt_png, hm]
  · by_cases hm : self.image.mode == "RGBA" <;>
      simp only [HEIX.as_jpeg, HEIX.as_png, saveAsFmt_jpeg, saveAsFmt_png, hm,
        if_true, if_false, List.append_assoc, List.singleton_append,
        List.cons_append, List.nil_append] <;>
      exact List.Perm.append_left fs (List.Perm.swap _ _ _)

/-- C7: constructing `HEIX(path)` raises `OSError` iff the path does not
exist or is not a regular file, raises `ValueError` iff it is an existing
file whose suffix is not exactly ".heic" or ".heif" (a case-sensitive
comparison), and whenever an error is raised the result does not depend on
the decoder — no decoding is attempted. -/
theorem heix_init_errors (decode : PathM → Image) (path : PathM) :
    ((∃ m, HEIX.init decode path = .error (.oserror m)) ↔
        (path.pathExists = false ∨ path.isFile = false))
    ∧ ((∃ m, HEIX.init decode path = .error (.valueError m)) ↔
        (path.pathExists = true ∧ path.isFile = true ∧
          path.suffix ≠ ".heic" ∧ path.suffix ≠ ".heif"))
    ∧ (∀ decode2 : PathM → Image, (∃ e, HEIX.init decode path = .error e) →
        HEIX.init decode path = HEIX.init decode2 path) := by
  obtain ⟨nm, pe, pf⟩ := path
  cases pe <;> cases pf <;>
    by_cases hs : SupportedExtensions.contains (suffixOfName nm) <;>
    simp_all [HEIX.init, PathM.suffix, SupportedExtensions]
  tauto

/-- C7 witness: an existing regular file named "x.HEIC" (upper-case suffix)
is rejected with `ValueError`. -/
theorem heix_init_errors_witness :
    ∃ m, HEIX.init (fun _ => ⟨"RGB", 0⟩) ⟨"x.HEIC", true, true⟩
      = Except.error (InitError.valueError m) :=
  (heix_init_errors (fun _ => ⟨"RGB", 0⟩) ⟨"x.HEIC", true, true⟩).2.1.mpr
    ⟨rfl, rfl, by decide, by decide⟩

/-- C9 witness: for a concrete RGBA image, saving as JPEG and then as PNG
writes an RGB copy for the JPEG and the untouched RGBA image for the PNG. -/
theorem heix_saves_pure_witness :
    ((HEIX.as_jpeg ⟨"a.heic", ⟨"RGBA", 5⟩⟩ "x.jpg" []).1.2.as_png "y.png"
        (HEIX.as_jpeg ⟨"a.heic", ⟨"RGBA", 5⟩⟩ "x.jpg" []).1.1).1.1
      = [⟨"x.jpg", "JPEG", ⟨"RGB", 5⟩⟩, ⟨"y.png", "PNG", ⟨"RGBA", 5⟩⟩] :=
  (heix_saves_pure ⟨"a.heic", ⟨"RGBA", 5⟩⟩ "x.jpg" "y.png" "JPEG" []).2.2.1 rfl

/-! ## The directory listing claims -/

theorem parse_cli_pattern : parsePattern "*.hei[cf]" = heiPat ['c', 'f'] := by
  decide

theorem parse_gui_pattern : parsePattern "*.hei[c|f]" = heiPat ['c', '|', 'f'] := by
  decide

theorem hasSuffixExt_iff (ext name : String) :
    hasSuffixExt ext name = true ↔ ext.data <:+ name.data := by
  simp [hasSuffixExt, List.isSuffixOf_iff_suffix]

theorem cli_match_iff (n : String) :
    gmatch (parsePattern "*.hei[cf]") n.data
      = (hasSuffixExt ".heic" n || hasSuffixExt ".heif" n) := by
  rw [parse_cli_pattern, Bool.eq_iff_iff, Bool.or_eq_true, gmatch_heiPat_iff,
    hasSuffixExt_iff, hasSuffixExt_iff,
    show (".heic".data : List Char) = ['.', 'h', 'e', 'i', 'c'] from rfl,
    show (".heif".data : List Char) = ['.', 'h', 'e', 'i', 'f'] from rfl]
  constructor
  · rintro ⟨c, hc, hs⟩
    have hcc : c = 'c' ∨ c = 'f' := by simpa using hc
    rcases hcc with rfl | rfl
    · exact Or.inl hs
    · exact Or.inr hs
  · rintro (hs | hs)
    · exact ⟨'c', by decide, hs⟩
    · exact ⟨'f', by decide, hs⟩

theorem gui_match_iff (n : String) :
    gmatch (parsePattern "*.hei[c|f]") n.data
      = (hasSuffixExt ".heic" n || hasSuffixExt ".heif" n
          || hasSuffixExt ".hei|" n) := by
  rw [parse_gui_pattern, Bool.eq_iff_iff, Bool.or_eq_true, Bool.or_eq_true,
    gmatch_heiPat_iff, hasSuffixExt_iff, hasSuffixExt_iff, hasSuffixExt_iff,
    show (".heic".data : List Char) = ['.', 'h', 'e', 'i', 'c'] from rfl,
    show (".heif".data : List Char) = ['.', 'h', 'e', 'i', 'f'] from rfl,
    show (".hei|".data : List Char) = ['.', 'h', 'e', 'i', '|'] from rfl]
  constructor
  · rintro ⟨c, hc, hs⟩
    have hcc : c = 'c' ∨ c = '|' ∨ c = 'f' := by simpa using hc
    rcases hcc with rfl | rfl | rfl
    · exact Or.inl (Or.inl hs)
    · exact Or.inr hs
    · exact Or.inl (Or.inr hs)
  · rintro ((hs | hs) | hs)
    · exact ⟨'c', by decide, hs⟩
    · exact ⟨'f', by decide, hs⟩
    · exact ⟨'|', by decide, hs⟩

/-- C3 counterexample: the GUI listing picks up a file named "x.hei|",
although that name ends in neither ".heic" nor ".heif" — the claim's
"exactly the files … whose names end in .heic or .heif, … in both the CLI
and the GUI worker" is false for the GUI pattern "*.hei[c|f]". -/
theorem directory_listing_cex :
    guiHeixImages ["x.hei|"]
      ≠ (["x.hei|"] : List String).filter
          (fun n => hasSuffixExt ".heic" n || hasSuffixExt ".heif" n) := by
  decide

/-- C3 amended: the CLI listing is exactly the files of the source directory
whose names end in ".heic" or ".heif"; the GUI listing is exactly those whose
names end in ".heic", ".heif" or ".hei|" (its character class `[c|f]` also
matches the bar); and, the directory's entries being distinct, each listed
file occurs exactly once in the listing each worker iterates over. -/
theorem directory_listing (files : List String) (h : files.Nodup) :
    cliHeixImages files
      = files.filter (fun n => hasSuffixExt ".heic" n || hasSuffixExt ".heif" n)
    ∧ guiHeixImages files
      = files.filter (fun n =>
          hasSuffixExt ".heic" n || hasSuffixExt ".heif" n
            || hasSuffixExt ".hei|" n)
    ∧ (∀ n ∈ cliHeixImages files, List.count n (cliHeixImages files) = 1)
    ∧ (∀ n ∈ guiHeixImages files, List.count n (guiHeixImages files) = 1) := by
  refine ⟨List.filter_congr (fun n _ => cli_match_iff n),
    List.filter_congr (fun n _ => gui_match_iff n), ?_, ?_⟩
  · intro n hn
    exact List.count_eq_one_of_mem (h.filter _) hn
  · intro n hn
    exact List.count_eq_one_of_mem (h.filter _) hn

/-- C3 witness: on a concrete directory the CLI listing keeps exactly the
".heic"/".heif" names, once each. -/
theorem directory_listing_witness :
    cliHeixImages ["a.heic", "b.txt", "c.heif"] = ["a.heic", "c.heif"]
    ∧ List.count "a.heic" (cliHeixImages ["a.heic", "b.txt", "c.heif"]) = 1 := by
  have h := directory_listing ["a.heic", "b.txt", "c.heif"] (by decide)
  exact ⟨by rw [h.1]; decide, h.2.2.1 "a.heic" (by decide)⟩

/-- C5 counterexample: a two-image GUI batch is handed to the pool as one
single runnable that performs both conversions itself, one after the other —
the claim's "in both the CLI and the GUI, multiple image conversions of one
batch may execute concurrently via a stock worker pool" fails for the GUI. -/
theorem batch_parallelism_cex :
    parallelBatch (guiPoolTasks ["a.heic", "b.heic"]) = false := by decide

/-- C5 amended: CLI batches are parallel — one pool task per image, so no
task serializes two conversions — while the GUI hands the pool exactly one
runnable for the whole batch, which converts the images strictly one after
another whenever the batch has at least two images. -/
theorem batch_parallelism (images : List String) :
    parallelBatch (cliPoolTasks images) = true
    ∧ (guiPoolTasks images).length = 1
    ∧ (2 ≤ images.length → parallelBatch (guiPoolTasks images) = false) := by
  refine ⟨?_, rfl, ?_⟩
  · simp [parallelBatch, cliPoolTasks, List.all_eq_true]
  · intro h
    simp only [parallelBatch, guiPoolTasks, List.all_cons, List.all_nil,
      Bool.and_true, decide_eq_false_iff_not]
    omega

/-- C5 witness: a concrete two-image batch is fully parallel in the CLI and
sequential in the GUI. -/
theorem batch_parallelism_witness :
    parallelBatch (cliPoolTasks ["a.heic", "b.heic"]) = true
    ∧ parallelBatch (guiPoolTasks ["a.heic", "b.heic"]) = false :=
  ⟨(batch_parallelism ["a.heic", "b.heic"]).1,
    (batch_parallelism ["a.heic", "b.heic"]).2.2 (by decide)⟩

/-- C6: no invocation of the entry point reaches the CLI — `main()` is
exactly `GUI().run()`, so the only interface it ever runs is the GUI and
`CLI.run` is unreachable from it. -/
theorem main_never_runs_cli :
    Interface.cli ∉ mainRuns ∧ Interface.gui ∈ mainRuns := by decide

/-- C1: neither batch worker ever writes an output file — class `HEIX`
defines no `save_as` attribute, so after a successful `HEIX(image_path)`
construction both `CLI._worker` and the `GUI.Worker.run` loop body raise
`AttributeError("save_as")` at `heix_image.save_as(...)`, and the filesystem
is left unchanged in every case. -/
theorem worker_save_as_missing (decode : PathM → Image) (dst : String)
    (p : PathM) (fmt : String) (fs : List SavedFile) :
    (cliWorker decode dst p fmt fs).1 = fs
    ∧ (guiWorkerStep decode dst p fmt fs).1 = fs
    ∧ ((∃ h, HEIX.init decode p = .ok h) →
        (cliWorker decode dst p fmt fs).2
            = some (WorkerError.attributeError "save_as")
        ∧ (guiWorkerStep decode dst p fmt fs).2
            = some (WorkerError.attributeError "save_as")) := by
  have hlook : HEIX.lookupAttr "save_as" = none := by decide
  rcases hinit : HEIX.init decode p with e | hx <;>
    simp [cliWorker, guiWorkerStep, hinit, hlook]

/-- C1 failing input: an existing regular file "photo.heic"; the worker
raises `AttributeError("save_as")` and writes nothing. -/
theorem worker_save_as_missing_witness :
    (cliWorker (fun _ => ⟨"RGB", 0⟩) "dst" ⟨"photo.heic", true, true⟩ "jpeg" []).2
      = some (WorkerError.attributeError "save_as") :=
  ((worker_save_as_missing (fun _ => ⟨"RGB", 0⟩) "dst" ⟨"photo.heic", true, true⟩
      "jpeg" []).2.2 ⟨⟨"photo.heic", ⟨"RGB", 0⟩⟩, rfl⟩).1

end HeixConverter
